/-
Verification of the libsafe batch-export program (`export_libsafe`).

Shallow embedding of the Python sources:
  * `irts_export/validators.py`        — input validation / sanitisation
  * `irts_export/database/connection.py` — parameterized metadata queries
  * `irts_export/export/batch_exporter.py` — the export engine
  * `export_libsafe.py`                — CLI entry point

Python strings are modelled as `List Char`; the filesystem as a partial map
from paths to byte contents; the metadata store and the DSpace fetch layer
as oracles (they are external collaborators of the engine).
-/
import Mathlib

set_option maxRecDepth 10000

abbrev Str := List Char

/-! ## Validators (`irts_export/validators.py`) -/

/-- The character class `[a-zA-Z0-9._-]` of `re.sub(r'[^a-zA-Z0-9._-]', '', ...)`
in `sanitize_filename`. -/
def allowedChar (c : Char) : Bool :=
  ('a' ≤ c && c ≤ 'z') || ('A' ≤ c && c ≤ 'Z') || ('0' ≤ c && c ≤ '9')
    || c = '.' || c = '_' || c = '-'

/-- One pass of `re.sub(r'\.{2,}', '.', s)`: every maximal run of dots is
emitted as a single dot.  The boolean flag records whether the previous
character was an already-emitted dot. -/
def collapseDotsAux : Bool → Str → Str
  | _, [] => []
  | prevDot, c :: rest =>
    if c = '.' then
      if prevDot then collapseDotsAux true rest
      else '.' :: collapseDotsAux true rest
    else c :: collapseDotsAux false rest

def collapseDots (s : Str) : Str := collapseDotsAux false s

/-- Function `sanitize_filename` (validators.py:116-134): drop characters outside
`[a-zA-Z0-9._-]`, strip leading dots (`lstrip('.')`), collapse runs of two
or more dots to a single dot.  (`collapseDots` also maps a lone dot to a
lone dot, which agrees with `re.sub(r'\.{2,}', '.', ·)` there.) -/
def sanitize_filename (s : Str) : Str :=
  collapseDots ((s.filter allowedChar).dropWhile (fun c => c = '.'))

/-- The relation "not two consecutive dots". -/
def NotDD (a b : Char) : Prop := ¬(a = '.' ∧ b = '.')

/-! ### `validate_handle` (validators.py:92-113)

The pattern is `re.match(r'^\d+/\d+$', handle)`.  In Python, `$` also
matches just before one trailing `'\n'`, so a handle with a single trailing
newline is accepted.  Python's `\d` (with `str` patterns) matches every
Unicode decimal digit; the embedding uses the ASCII digits `Char.isDigit`,
so theorems quantifying negatively over inputs are restricted to ASCII
strings, where the embedding is exact. -/

inductive VError where
  | invalidHandle
  | pathTraversal
deriving DecidableEq

/-- The anchored core `\d+/\d+` consuming the whole input: since `\d` never
matches `'/'`, the greedy decomposition by the maximal digit prefix is the
only possible one. -/
def coreMatch (s : Str) : Bool :=
  let a := s.takeWhile Char.isDigit
  match s.dropWhile Char.isDigit with
  | '/' :: b => (!a.isEmpty) && (!b.isEmpty) && b.all Char.isDigit
  | _ => false

/-- Behaviour of `re.match(r'^\d+/\d+$', s)` as a whole: the core match, or the core
match of everything before one single trailing newline. -/
def pyFullMatch (s : Str) : Bool :=
  coreMatch s || ((s.getLast? == some '\n') && coreMatch s.dropLast)

/-- Function `validate_handle`: returns the input unchanged if the pattern matches,
otherwise raises `InvalidHandleError`. -/
def validate_handle (s : Str) : Except VError Str :=
  if pyFullMatch s then .ok s else .error .invalidHandle

/-- The spec's reading of "matches `digits/digits` exactly (anchored, no
extra characters)". -/
def ExactHandleForm (s : Str) : Prop :=
  ∃ a b : Str, s = a ++ '/' :: b ∧ a ≠ [] ∧ b ≠ []
    ∧ (∀ c ∈ a, c.isDigit = true) ∧ (∀ c ∈ b, c.isDigit = true)

/-! ### `validate_safe_path` (validators.py:137-165)

`Path.resolve()` is modelled by an arbitrary resolution function supplied
by the caller; the containment check itself is the plain string-prefix test
`str(resolved_path).startswith(str(allowed_dir))` from the source.  The
claims instantiate `resolve` with the identity (canonical inputs, no
symlinks). -/

def validate_safe_path (resolve : Str → Str) (file_path allowed_directory : Str) :
    Except VError Str :=
  let resolved_path := resolve file_path
  let allowed_dir := resolve allowed_directory
  if allowed_dir.isPrefixOf resolved_path then .ok resolved_path
  else .error .pathTraversal

/-- Proper directory containment: the path is the directory itself or lies
below it (the directory string followed by a separator). -/
def WithinDir (dir p : Str) : Prop := p = dir ∨ dir ++ ['/'] <+: p

/-! ## Metadata store queries (`irts_export/database/connection.py`)

A metadata row carries the columns used by the queries.  `deletedNull`
models `deleted IS NULL`; `srcCol` is the `source` column; `added` and the
date parameters are `YYYY-MM-DD` strings compared lexicographically, as
MySQL compares them. -/

structure MRow where
  idInSource : Str
  field : Str
  value : Str
  added : Str
  deletedNull : Bool
  srcCol : Str
deriving DecidableEq

/-- Lexicographic (code-point) comparison of strings, as Python `<`/`>` and
MySQL string comparison behave on these date strings. -/
def lexLt : Str → Str → Bool
  | [], [] => false
  | [], _ :: _ => true
  | _ :: _, [] => false
  | a :: as, b :: bs => if a < b then true else if b < a then false else lexLt as bs

/-- The fixed `dc.type` allow-list of `get_handles_for_export`. -/
def allowedTypes : List Str :=
  ["Article", "Book", "Book Chapter", "Conference Paper", "Dissertation",
   "Patent", "Preprint", "Protocol", "Report", "Technical Report",
   "Thesis"].map String.data

/-- Subquery: handles whose `dspace.community.handle` is one of the two
configured community roots. -/
def communityIds (tbl : List MRow) (research etd : Str) : List Str :=
  (tbl.filter (fun r => r.srcCol == "repository".data
      && r.field == "dspace.community.handle".data
      && (r.value == research || r.value == etd)
      && r.deletedNull)).map (·.idInSource)

/-- Innermost subquery: `dspace.bitstream.uuid` values with `added < %s`
(note: the source has no `deleted IS NULL` clause here). -/
def uuidValuesAddedBefore (tbl : List MRow) (d : Str) : List Str :=
  (tbl.filter (fun r => r.srcCol == "repository".data
      && r.field == "dspace.bitstream.uuid".data
      && lexLt r.added d)).map (·.value)

/-- Date subquery of `get_handles_for_export`: handles having a bitstream
row whose uuid value was not added before `d` and whose `added` is
STRICTLY after `d` (`added > %s`). -/
def dateFilteredIds (tbl : List MRow) (d : Str) : List Str :=
  (tbl.filter (fun r => r.srcCol == "repository".data
      && r.field == "dspace.bitstream.uuid".data
      && !((uuidValuesAddedBefore tbl d).contains r.value)
      && lexLt d r.added
      && r.deletedNull)).map (·.idInSource)

/-- Query `get_handles_for_export` (connection.py:128-181).  Its Python signature
is `def get_handles_for_export(self, from_date=None)`: ONE optional date
parameter.  `SELECT DISTINCT` is modelled by `List.dedup`. -/
def get_handles_for_export (tbl : List MRow) (research etd : Str)
    (from_date : Option Str) : List Str :=
  ((tbl.filter (fun r => r.srcCol == "repository".data
      && r.field == "dc.type".data
      && allowedTypes.contains r.value
      && (communityIds tbl research etd).contains r.idInSource
      && r.deletedNull
      && (match from_date with
          | none => true
          | some d => (dateFilteredIds tbl d).contains r.idInSource))).map
    (·.idInSource)).dedup

/-- Python positional-call semantics for `db.get_handles_for_export(...)`:
the method accepts zero or one date arguments; a call with two positional
arguments — as `export_batch` makes at batch_exporter.py:252 — raises
`TypeError`. -/
inductive PyCall (α : Type) where
  | ok (val : α)
  | typeError
deriving DecidableEq

def callGetHandlesForExport (tbl : List MRow) (research etd : Str)
    (args : List (Option Str)) : PyCall (List Str) :=
  match args with
  | [] => .ok (get_handles_for_export tbl research etd none)
  | [d] => .ok (get_handles_for_export tbl research etd d)
  | _ => .typeError

/-- Modelled from the spec: `list_eligible_handles(start_date?, end_date?)`
— "returns distinct handles whose classification is in a fixed allow-list
of work types, whose parent-collection membership is in a fixed pair of
configured roots, and — if a date bound is given — whose earliest
file-attachment timestamp falls on/after `start_date` and/or on/before
`end_date`"; bounds inclusive, an absent bound unfiltered.  Used only to
contrast with the code's `get_handles_for_export`. -/
def earliestAttachment (tbl : List MRow) (h : Str) : Option Str :=
  ((tbl.filter (fun r => r.srcCol == "repository".data
      && r.field == "dspace.bitstream.uuid".data
      && r.idInSource == h
      && r.deletedNull)).map (·.added)).foldr
    (fun a acc => match acc with
      | none => some a
      | some b => some (if lexLt a b then a else b)) none

def list_eligible_handles (tbl : List MRow) (research etd : Str)
    (startD endD : Option Str) : List Str :=
  ((tbl.filter (fun r => r.srcCol == "repository".data
      && r.field == "dc.type".data
      && allowedTypes.contains r.value
      && (communityIds tbl research etd).contains r.idInSource
      && r.deletedNull
      && (match startD with
          | none => true
          | some sd => match earliestAttachment tbl r.idInSource with
            | some ea => !lexLt ea sd
            | none => false)
      && (match endD with
          | none => true
          | some ed => match earliestAttachment tbl r.idInSource with
            | some ea => !lexLt ed ea
            | none => false))).map (·.idInSource)).dedup

/-- Concrete community-root configuration used in the examples (the .env
defaults from config.py). -/
def kaustResearch : Str := "10754/324602".data
def kaustEtd : Str := "10754/124545".data

/-- A one-handle table: an Article in the research community whose single
`dspace.bitstream.uuid` row was added on `2024-06-15`. -/
def mkEligibleTbl (addedDate : Str) : List MRow :=
  [{ idInSource := "10754/1".data, field := "dc.type".data,
     value := "Article".data, added := [], deletedNull := true,
     srcCol := "repository".data },
   { idInSource := "10754/1".data, field := "dspace.community.handle".data,
     value := kaustResearch, added := [], deletedNull := true,
     srcCol := "repository".data },
   { idInSource := "10754/1".data, field := "dspace.bitstream.uuid".data,
     value := "0a1b2c3d-0000-0000-0000-000000000001".data,
     added := addedDate, deletedNull := true,
     srcCol := "repository".data }]

/-! ## The export engine (`irts_export/export/batch_exporter.py`)

The engine treats the metadata store and the DSpace fetch layer as
external collaborators: `Db` and `Dspace` are their oracles.  The
filesystem is a partial map from path strings to byte contents; `resolve()`
is the identity (canonical paths, no symlinks).  Observable side effects
are collected in a trace. -/

/-- Bytes of a downloaded file. -/
abbrev Content := List Nat

abbrev FS := Str → Option Content

inductive Effect where
  | dbLookupHandles
  | dbLookupEmbargoed
  | dbMetadata (handle field : Str)
  | dbUuids (handle : Str)
  | apiFetch (uuid : Str)
  | fsWriteTmp (path : Str)
  | fsRename (src dst : Str)
  | csvWrite
deriving DecidableEq

/-- Outcome of `dspace.get_bitstream_content(uuid)` as seen by
`_download_file`: a 200 response body, or any raised exception
(`DSpaceAPIError` subclasses and everything else are caught alike and
yield `False`; transient retries happen inside the fetch service). -/
inductive FetchResult where
  | success (content : Content)
  | failure
deriving DecidableEq

structure Db where
  metadataValues : Str → Str → List Str
  bitstreamUuids : Str → List Str

structure Dspace where
  fetchResult : Str → FetchResult

/-- Constant `Config.MAX_FILE_SIZE = 100 * 1024 * 1024`. -/
def MAX_FILE_SIZE : Nat := 100 * 1024 * 1024

/-- Behaviour of `Path.with_suffix('.tmp')`: replace everything from the last dot on
with `.tmp` (append when there is no dot; the engine's paths always end in
`.pdf`, where both notions agree). -/
def tmpPath (p : Str) : Str :=
  (if p.contains '.'
   then (((p.reverse.dropWhile (fun c => c ≠ '.')).drop 1)).reverse
   else p) ++ ".tmp".data

/-- Method `_download_file` (batch_exporter.py:160-202): fetch the bitstream; on
success check the size ceiling, write the bytes to the temporary path and
atomically rename it to the final path; on any exception return False with
the filesystem untouched.  Returns (success?, filesystem, effects). -/
def download_file (ds : Dspace) (fs : FS) (uuid path : Str) :
    Bool × FS × List Effect :=
  match ds.fetchResult uuid with
  | .failure => (false, fs, [Effect.apiFetch uuid])
  | .success content =>
    if content.length > MAX_FILE_SIZE then (false, fs, [Effect.apiFetch uuid])
    else
      (true,
       fun q => if q = path then some content
                else if q = tmpPath path then none else fs q,
       [Effect.apiFetch uuid, Effect.fsWriteTmp (tmpPath path), Effect.fsRename (tmpPath path) path])

/-- The `for uuid in uuids: ... break / else:` loop of `export_batch`
(batch_exporter.py:335-352): try identifiers in order, stop at the first
success. -/
def tryUuids (ds : Dspace) (fs : FS) (path : Str) :
    List Str → Bool × FS × List Effect
  | [] => (false, fs, [])
  | u :: rest =>
    match download_file ds fs u path with
    | (true, fs1, tr) => (true, fs1, tr)
    | (false, fs1, tr) =>
      match tryUuids ds fs1 path rest with
      | (ok2, fs2, tr2) => (ok2, fs2, tr ++ tr2)

/-- Table `BatchExporter.WORK_FIELDS`, in its fixed order. -/
def WORK_FIELDS : List (Str × Str) :=
  [("Type".data, "dc.type".data),
   ("Title".data, "dc.title".data),
   ("Author".data, "dc.contributor.author".data),
   ("DOI".data, "dc.identifier.doi".data),
   ("Publication Date".data, "dc.date.issued".data),
   ("Repository Record Created".data, "dc.date.accessioned".data)]

/-- Behaviour of `re.sub(r'\s+', ' ', s)`: collapse whitespace runs to single spaces
(Python's `\s` on ASCII agrees with `Char.isWhitespace`). -/
def collapseWSAux : Bool → Str → Str
  | _, [] => []
  | prevWS, c :: rest =>
    if c.isWhitespace then
      if prevWS then collapseWSAux true rest
      else ' ' :: collapseWSAux true rest
    else c :: collapseWSAux false rest

/-- Behaviour of `str.strip()`: remove leading and trailing whitespace. -/
def pyStrip (s : Str) : Str :=
  ((s.dropWhile Char.isWhitespace).reverse.dropWhile Char.isWhitespace).reverse

/-- Python's substring test `pat in s`. -/
def containsSub (pat : Str) : Str → Bool
  | [] => pat.isPrefixOf []
  | c :: rest => pat.isPrefixOf (c :: rest) || containsSub pat rest

/-- Behaviour of `s.split(pat)[0]`: the prefix before the first occurrence of `pat`
(the whole string when `pat` does not occur). -/
def takeBefore (pat : Str) : Str → Str
  | [] => []
  | c :: rest => if pat.isPrefixOf (c :: rest) then [] else c :: takeBefore pat rest

/-- One CSV output row: the handle URL, the file name, and the six tracked
metadata fields in `WORK_FIELDS` order. -/
structure CsvRow where
  handleUrl : Str
  fileName : Str
  fieldVals : List (Str × Str)
deriving DecidableEq

/-- Method `_get_metadata_for_handle` (batch_exporter.py:128-158): handle URL,
empty File, then per field the semicolon-joined, whitespace-normalised
values, keeping only the first value for `Type`.  Also returns the lookup
effects. -/
def get_metadata_for_handle (db : Db) (handle : Str) : CsvRow × List Effect :=
  (⟨"http://hdl.handle.net/".data ++ handle, [],
    WORK_FIELDS.map (fun lf =>
      let combined := pyStrip (collapseWSAux false
        (List.intercalate ("; ".data) (db.metadataValues handle lf.2)))
      (lf.1,
       if lf.1 == "Type".data && containsSub ("; ".data) combined
       then takeBefore ("; ".data) combined else combined))⟩,
   WORK_FIELDS.map (fun lf => .dbMetadata handle lf.2))

/-- Python `s.split('/')`. -/
def splitSlash : Str → List Str
  | [] => [[]]
  | c :: rest =>
    if c = '/' then [] :: splitSlash rest
    else match splitSlash rest with
      | [] => [[c]]
      | s :: ss => (c :: s) :: ss

/-- Expression `handle.split('/')[1]` (only evaluated on validated handles, which
have at least two segments). -/
def handleSuffix (handle : Str) : Str := (splitSlash handle).getD 1 []

/-- Expression `handle_url.split('/')[-1]`. -/
def lastSlashSeg (url : Str) : Str := ((splitSlash url).reverse).headD []

/-- What one attempt to read the existing `metadata.csv` yields: the
`Handle` column of each parsed row, or the point at which an exception is
raised.  A missing file reads as the empty event list. -/
inductive CsvEvent where
  | row (handleUrl : Str)
  | readError
deriving DecidableEq

/-- Method `_get_existing_handles_from_csv` (batch_exporter.py:77-104): collect
the suffix after the last `/` of each row's Handle URL; any exception is
caught and logged, and the suffixes accumulated so far are returned. -/
def get_existing_handles_from_csv : List CsvEvent → List Str
  | [] => []
  | .readError :: _ => []
  | .row url :: rest =>
    (if url.contains '/' then [lastSlashSeg url] else [])
      ++ get_existing_handles_from_csv rest

structure Env where
  csvDone : List Str
  filesPresent : List Str
  exportDir : Str

structure EngineSt where
  total : Nat
  success : Nat
  skipped : Nat
  errors : Nat
  downloaded : Nat
  rows : List CsvRow
  fs : FS
  trace : List Effect

/-- The per-candidate body of `export_batch`'s loop
(batch_exporter.py:280-352), in source order: count the candidate,
validate the handle, skip when the suffix is already in the CSV, assemble
the metadata row, sanitise the file name, validate the target path,
either register a pre-existing file or try the bitstream identifiers in
order; errors are counted and never abort. -/
def processHandle (db : Db) (ds : Dspace) (env : Env) (st : EngineSt)
    (handle : Str) : EngineSt :=
  let st := { st with total := st.total + 1 }
  if pyFullMatch handle then
    let suffix := handleSuffix handle
    if env.csvDone.contains suffix then
      { st with skipped := st.skipped + 1 }
    else
      let pair := get_metadata_for_handle db handle
      let filename := sanitize_filename (suffix ++ ".pdf".data)
      let row := { pair.1 with fileName := filename }
      let path := env.exportDir ++ '/' :: filename
      let st := { st with trace := st.trace ++ pair.2 }
      match validate_safe_path id path env.exportDir with
      | .error _ => { st with errors := st.errors + 1 }
      | .ok _ =>
        if env.filesPresent.contains suffix then
          { st with rows := st.rows ++ [row],
                    trace := st.trace ++ [Effect.csvWrite],
                    success := st.success + 1,
                    downloaded := st.downloaded + 1 }
        else
          let uuids := db.bitstreamUuids handle
          let st := { st with trace := st.trace ++ [Effect.dbUuids handle] }
          if uuids.isEmpty then { st with errors := st.errors + 1 }
          else
            match tryUuids ds st.fs path uuids with
            | (true, fs2, tr) =>
              { st with rows := st.rows ++ [row], fs := fs2,
                        trace := st.trace ++ tr ++ [Effect.csvWrite],
                        success := st.success + 1,
                        downloaded := st.downloaded + 1 }
            | (false, fs2, tr) =>
              { st with errors := st.errors + 1, fs := fs2,
                        trace := st.trace ++ tr }
  else
    { st with errors := st.errors + 1 }

/-- The candidate loop (batch_exporter.py:274-352): before each candidate,
stop the whole loop once `limit > 0` and the run's download count has
reached it. -/
def exportLoop (db : Db) (ds : Dspace) (env : Env) (limit : Nat) :
    EngineSt → List Str → EngineSt
  | st, [] => st
  | st, h :: rest =>
    if 0 < limit ∧ limit ≤ st.downloaded then st
    else exportLoop db ds env limit (processHandle db ds env st h) rest

structure Summary where
  total_handles : Nat
  processed : Nat
  successful : Nat
  skipped : Nat
  errors : Nat
  limit : Nat
  limit_reached : Bool
deriving DecidableEq

def initSt (fs0 : FS) : EngineSt :=
  ⟨0, 0, 0, 0, 0, [], fs0, [Effect.dbLookupHandles, Effect.dbLookupEmbargoed]⟩

/-- Method `export_batch` (batch_exporter.py:204-376) from the point where the
candidate set has been fetched: reconstruct `csv_done` from the CSV,
subtract the embargoed handles, run the loop, and build the summary.
`fetched` stands for the result of the candidate lookup and `embargoed`
for `get_embargoed_handles(today)` (external collaborators; the lookup
call itself is settled separately, see `C1_lookup_arity_bug`).  The
summary's `elapsed_seconds` and `csv_path` are wall-clock and
configuration output, not modelled. -/
def export_batch (db : Db) (ds : Dspace) (fetched embargoed : List Str)
    (csvEvents : List CsvEvent) (filesPresent : List Str) (exportDir : Str)
    (fs0 : FS) (limit : Nat) : Summary × EngineSt :=
  let csvDone := get_existing_handles_from_csv csvEvents
  let handles := fetched.filter (fun h => !(embargoed.contains h))
  let env : Env := ⟨csvDone, filesPresent, exportDir⟩
  let st := exportLoop db ds env limit (initSt fs0) handles
  (⟨handles.length, st.total, st.success, st.skipped, st.errors, limit,
    decide (0 < limit ∧ limit ≤ st.downloaded)⟩, st)

/-! ## CLI entry point (`export_libsafe.py`) -/

structure CliArgs where
  start : Option Str
  endD : Option Str
  number : Int

/-- Python truthiness of an optional string (`args.start and args.end`):
`None` and the empty string are falsy. -/
def truthy : Option Str → Bool
  | none => false
  | some s => !s.isEmpty

inductive MainResult where
  | parserError
  | ran (s : Summary)

/-- Function `main()` (export_libsafe.py:39-163) up to the export run: reject a
negative `--number`; reject `--start > --end` when both are supplied
(string comparison, before any database or API work); otherwise run the
export.  The effect trace of a rejected run is empty: `parser.error`
raises before the database connection is opened. -/
def main_model (db : Db) (ds : Dspace) (fetched embargoed : List Str)
    (csvEvents : List CsvEvent) (filesPresent : List Str) (exportDir : Str)
    (fs0 : FS) (a : CliArgs) : MainResult × List Effect :=
  if a.number < 0 then (.parserError, [])
  else if truthy a.start && truthy a.endD
      && lexLt (a.endD.getD []) (a.start.getD []) then (.parserError, [])
  else
    let out := export_batch db ds fetched embargoed csvEvents filesPresent
      exportDir fs0 a.number.toNat
    (.ran out.1, out.2.trace)

/-! ## Concrete fixtures used by witnesses and closed runs -/

def fsEmpty : FS := fun _ => none

/-- A store where every record has one bitstream and no metadata values. -/
def db4 : Db := ⟨fun _ _ => [], fun h => [h ++ "-u".data]⟩

/-- A fetch service where every download succeeds with two bytes. -/
def ds4 : Dspace := ⟨fun _ => .success [0, 1]⟩

def fiveHandles : List Str :=
  ["10754/1".data, "10754/2".data, "10754/3".data, "10754/4".data,
   "10754/5".data]

def db0 : Db := ⟨fun _ _ => [], fun _ => []⟩
def ds0 : Dspace := ⟨fun _ => .failure⟩

/-- An environment whose CSV already records suffix `124545`. -/
def env0 : Env := ⟨["124545".data], [], "/export".data⟩

/-- A record with two bitstream identifiers. -/
def dbC3 : Db := ⟨fun _ _ => [], fun _ => ["u1".data, "u2".data]⟩

/-- The first identifier fails permanently, the second succeeds. -/
def dsC3 : Dspace :=
  ⟨fun u => if u == "u1".data then .failure else .success [7, 8]⟩

def envC3 : Env := ⟨[], [], "/export".data⟩

def dbC10 : Db := ⟨fun _ _ => [], fun _ => ["u".data]⟩
def dsC10 : Dspace := ⟨fun _ => .success [1]⟩

def url124545 : Str := "http://hdl.handle.net/10754/124545".data

/-! ## Theorems -/
theorem collapseDotsAux_dot_true (rest : Str) :
    collapseDotsAux true ('.' :: rest) = collapseDotsAux true rest := by
  simp [collapseDotsAux]

theorem collapseDotsAux_dot_false (rest : Str) :
    collapseDotsAux false ('.' :: rest) = '.' :: collapseDotsAux true rest := by
  simp [collapseDotsAux]

theorem collapseDotsAux_ne {d : Char} (hd : d ≠ '.') (b : Bool) (rest : Str) :
    collapseDotsAux b (d :: rest) = d :: collapseDotsAux false rest := by
  cases b <;> simp [collapseDotsAux, hd]

/-- Membership in the output of `collapseDotsAux` comes from the input. -/
theorem mem_collapseDotsAux {c : Char} :
    ∀ (b : Bool) (l : Str), c ∈ collapseDotsAux b l → c ∈ l := by
  intro b l
  induction l generalizing b with
  | nil => simp [collapseDotsAux]
  | cons d rest ih =>
    intro h
    by_cases hd : d = '.'
    · subst hd
      cases b with
      | true =>
        rw [collapseDotsAux_dot_true] at h
        exact List.mem_cons_of_mem _ (ih true h)
      | false =>
        rw [collapseDotsAux_dot_false] at h
        rcases List.mem_cons.1 h with h | h
        · exact List.mem_cons.2 (Or.inl h)
        · exact List.mem_cons_of_mem _ (ih true h)
    · rw [collapseDotsAux_ne hd] at h
      rcases List.mem_cons.1 h with h | h
      · exact List.mem_cons.2 (Or.inl h)
      · exact List.mem_cons_of_mem _ (ih false h)

/-- Applying `collapseDotsAux true` never emits a leading dot. -/
theorem head_collapseDotsAux_true :
    ∀ l : Str, (collapseDotsAux true l).head? ≠ some '.' := by
  intro l
  induction l with
  | nil => simp [collapseDotsAux]
  | cons d rest ih =>
    by_cases hd : d = '.'
    · subst hd; rw [collapseDotsAux_dot_true]; exact ih
    · rw [collapseDotsAux_ne hd]
      simpa using hd

theorem chain'_collapseDotsAux :
    ∀ (b : Bool) (l : Str), List.Chain' NotDD (collapseDotsAux b l) := by
  intro b l
  induction l generalizing b with
  | nil => simp [collapseDotsAux]
  | cons d rest ih =>
    by_cases hd : d = '.'
    · subst hd
      cases b with
      | true => rw [collapseDotsAux_dot_true]; exact ih true
      | false =>
        rw [collapseDotsAux_dot_false]
        refine List.chain'_cons'.2 ⟨?_, ih true⟩
        intro y hy hcon
        exact head_collapseDotsAux_true rest (by rw [hy, hcon.2])
    · rw [collapseDotsAux_ne hd]
      refine List.chain'_cons'.2 ⟨?_, ih false⟩
      intro y _ hcon
      exact hd hcon.1

/-- Function `collapseDotsAux` is the identity on already-collapsed input (no two
consecutive dots, and no leading dot when the flag is set). -/
theorem collapseDotsAux_eq_self :
    ∀ (b : Bool) (l : Str), List.Chain' NotDD l →
      (b = true → l.head? ≠ some '.') → collapseDotsAux b l = l := by
  intro b l
  induction l generalizing b with
  | nil => intro _ _; simp [collapseDotsAux]
  | cons d rest ih =>
    intro hch hhd
    have hch' : List.Chain' NotDD rest := (List.chain'_cons'.1 hch).2
    by_cases hd : d = '.'
    · subst hd
      cases b with
      | true => exact absurd rfl (hhd rfl)
      | false =>
        rw [collapseDotsAux_dot_false]
        have hrest : rest.head? ≠ some '.' := by
          intro h
          exact (List.chain'_cons'.1 hch).1 '.' h ⟨rfl, rfl⟩
        rw [ih true hch' (fun _ => hrest)]
    · rw [collapseDotsAux_ne hd]
      rw [ih false hch' (by simp)]

theorem head_dropWhile_dot (l : Str) :
    (l.dropWhile (fun c => c = '.')).head? ≠ some '.' := by
  induction l with
  | nil => simp
  | cons d rest ih =>
    by_cases hd : d = '.'
    · subst hd; simpa [List.dropWhile] using ih
    · simp [List.dropWhile, hd]

theorem mem_sanitize_allowed {c : Char} {s : Str} (h : c ∈ sanitize_filename s) :
    allowedChar c = true := by
  have h1 : c ∈ (s.filter allowedChar).dropWhile (fun c => c = '.') :=
    mem_collapseDotsAux false _ h
  have h2 : c ∈ s.filter allowedChar :=
    (List.dropWhile_sublist _).mem h1
  exact (List.mem_filter.1 h2).2

theorem head_collapseDotsAux_false {l : Str} (h : l.head? ≠ some '.') :
    (collapseDotsAux false l).head? ≠ some '.' := by
  cases l with
  | nil => simp [collapseDotsAux]
  | cons d rest =>
    by_cases hd : d = '.'
    · exact absurd (show (d :: rest).head? = some '.' by rw [hd]; rfl) h
    · rw [collapseDotsAux_ne hd]
      simpa using hd

theorem head_sanitize_ne_dot (s : Str) :
    (sanitize_filename s).head? ≠ some '.' :=
  head_collapseDotsAux_false (head_dropWhile_dot _)

theorem chain'_sanitize (s : Str) :
    List.Chain' NotDD (sanitize_filename s) :=
  chain'_collapseDotsAux false _

theorem sanitize_no_double_dot (s : Str) :
    ¬ (['.', '.'] <:+: sanitize_filename s) := by
  intro h
  have hc := List.Chain'.infix (chain'_sanitize s) h
  exact (List.chain'_cons.1 hc).1 ⟨rfl, rfl⟩

theorem sanitize_idem (s : Str) :
    sanitize_filename (sanitize_filename s) = sanitize_filename s := by
  have hall : (sanitize_filename s).filter allowedChar = sanitize_filename s := by
    rw [List.filter_eq_self]
    intro c hc
    exact mem_sanitize_allowed hc
  have hdrop : (sanitize_filename s).dropWhile (fun c => c = '.') = sanitize_filename s := by
    cases hs : sanitize_filename s with
    | nil => simp
    | cons d rest =>
      have hd : d ≠ '.' := by
        have := head_sanitize_ne_dot s
        rw [hs] at this
        simpa using this
      simp [List.dropWhile, hd]
  have hstep : sanitize_filename (sanitize_filename s)
      = collapseDots (((sanitize_filename s).filter allowedChar).dropWhile (fun c => c = '.')) := rfl
  rw [hstep, hall, hdrop]
  exact collapseDotsAux_eq_self false _ (chain'_sanitize s) (by simp)

/-- C6: `sanitize_filename` is idempotent; its output contains only characters
in `[A-Za-z0-9._-]`, never begins with a dot, and never contains two
consecutive dots. -/
theorem C6_sanitize_filename_properties (s : Str) :
    sanitize_filename (sanitize_filename s) = sanitize_filename s
    ∧ (∀ c ∈ sanitize_filename s, allowedChar c = true)
    ∧ (sanitize_filename s).head? ≠ some '.'
    ∧ ¬ (['.', '.'] <:+: sanitize_filename s) :=
  ⟨sanitize_idem s, fun _ hc => mem_sanitize_allowed hc,
   head_sanitize_ne_dot s, sanitize_no_double_dot s⟩

/-- Witness for C6 at the concrete input `"..a//b..c"`. -/
theorem C6_sanitize_filename_properties_witness :
    allowedChar 'a' = true
    ∧ sanitize_filename (sanitize_filename ("..a//b..c".data))
        = sanitize_filename ("..a//b..c".data) :=
  ⟨(C6_sanitize_filename_properties ("..a//b..c".data)).2.1 'a' (by decide),
   (C6_sanitize_filename_properties ("..a//b..c".data)).1⟩

theorem takeWhile_append_all {p : Char → Bool} :
    ∀ a r : Str, (∀ c ∈ a, p c = true) →
      (a ++ r).takeWhile p = a ++ r.takeWhile p
        ∧ (a ++ r).dropWhile p = r.dropWhile p := by
  intro a
  induction a with
  | nil => intro r _; simp
  | cons c a ih =>
    intro r hall
    have hc : p c = true := hall c (List.mem_cons_self _ _)
    have := ih r (fun d hd => hall d (List.mem_cons_of_mem _ hd))
    simp [List.takeWhile, List.dropWhile, hc, this.1, this.2]

theorem coreMatch_iff_exact (s : Str) : coreMatch s = true ↔ ExactHandleForm s := by
  constructor
  · intro h
    unfold coreMatch at h
    rcases hr : s.dropWhile Char.isDigit with _ | ⟨c, b⟩
    · rw [hr] at h; simp at h
    · rw [hr] at h
      by_cases hc : c = '/'
      · subst hc
        simp only [Bool.and_eq_true, Bool.not_eq_true'] at h
        refine ⟨s.takeWhile Char.isDigit, b, ?_, ?_, ?_, ?_, ?_⟩
        · rw [← hr, List.takeWhile_append_dropWhile]
        · intro hemp
          rcases h with ⟨⟨h1, _⟩, _⟩
          rw [hemp] at h1
          simp at h1
        · intro hemp
          rcases h with ⟨⟨_, h2⟩, _⟩
          rw [hemp] at h2
          simp at h2
        · intro d hd
          exact List.mem_takeWhile_imp hd
        · intro d hd
          exact (List.all_eq_true.1 h.2) d hd
      · simp only [hc] at h
        split at h
        · rename_i heq
          exact absurd (List.cons.inj heq).1 hc
        · exact absurd h (by simp)
  · rintro ⟨a, b, hs, ha, hb, hda, hdb⟩
    subst hs
    have hsplit := takeWhile_append_all a ('/' :: b) hda
    have hslash : Char.isDigit '/' = false := by decide
    unfold coreMatch
    rw [hsplit.2]
    simp only [List.dropWhile, hslash]
    rw [hsplit.1]
    simp only [List.takeWhile, hslash]
    simp only [List.isEmpty_iff, ha, hb, List.all_eq_true, Bool.not_eq_true',
      Bool.and_eq_true]
    refine ⟨⟨?_, ?_⟩, hdb⟩
    · simp [List.isEmpty_iff, ha]
    · simp [List.isEmpty_iff, hb]

/-- C7 counterexample: `"12/34\n"` does not match `digits/digits` exactly
(it has a trailing newline), yet `validate_handle` accepts it and returns
it unchanged, because Python's `$` matches before a single trailing
newline. -/
theorem C7_validate_handle_counterexample :
    ¬ ExactHandleForm ("12/34\n".data)
    ∧ validate_handle ("12/34\n".data) = .ok ("12/34\n".data) := by
  constructor
  · intro h
    have hc := (coreMatch_iff_exact _).mpr h
    revert hc
    decide
  · rfl

/-- C7 amended: on ASCII inputs, `validate_handle` returns the input
unchanged exactly when it is `digits/digits`, optionally followed by one
trailing newline; every other ASCII string is rejected with
`InvalidHandleError`.  (The ASCII restriction marks where the embedding of
Python's Unicode-aware `\d` is exact.) -/
theorem C7_validate_handle_amended (s : Str) (_hascii : ∀ c ∈ s, c.val < 128) :
    (validate_handle s = .ok s
      ↔ (ExactHandleForm s ∨ (s.getLast? = some '\n' ∧ ExactHandleForm s.dropLast)))
    ∧ (∀ r, validate_handle s = .ok r → r = s)
    ∧ (¬ (ExactHandleForm s ∨ (s.getLast? = some '\n' ∧ ExactHandleForm s.dropLast))
        → validate_handle s = .error .invalidHandle) := by
  have hiff : pyFullMatch s = true
      ↔ (ExactHandleForm s ∨ (s.getLast? = some '\n' ∧ ExactHandleForm s.dropLast)) := by
    unfold pyFullMatch
    rw [Bool.or_eq_true, Bool.and_eq_true, coreMatch_iff_exact, coreMatch_iff_exact]
    constructor
    · rintro (h | ⟨h1, h2⟩)
      · exact Or.inl h
      · exact Or.inr ⟨by simpa using h1, h2⟩
    · rintro (h | ⟨h1, h2⟩)
      · exact Or.inl h
      · exact Or.inr ⟨by simpa using h1, h2⟩
  refine ⟨?_, ?_, ?_⟩
  · constructor
    · intro h
      rw [← hiff]
      by_cases hm : pyFullMatch s
      · exact hm
      · unfold validate_handle at h
        rw [if_neg hm] at h
        exact absurd h (by simp)
    · intro h
      unfold validate_handle
      rw [if_pos (hiff.mpr h)]
  · intro r h
    unfold validate_handle at h
    split at h
    · exact (Except.ok.inj h).symm
    · exact absurd h (by simp)
  · intro h
    unfold validate_handle
    rw [if_neg]
    intro hm
    exact h (hiff.mp hm)

/-- Witness for C7 amended at `"12/34"`. -/
theorem C7_validate_handle_amended_witness :
    validate_handle ("12/34".data) = .ok ("12/34".data) :=
  ((C7_validate_handle_amended ("12/34".data) (by decide)).1).mpr
    (Or.inl ⟨"12".data, "34".data, by decide, by decide, by decide, by decide, by decide⟩)

/-- C9: for any allowed directory resolving to `r`, the sibling path
`r ++ "-other/" ++ rest` is not within the directory, yet
`validate_safe_path` accepts it and returns it, because containment is a
bare string-prefix test with no separator check. -/
theorem C9_validate_safe_path_prefix_escape (r rest : Str) :
    validate_safe_path id (r ++ ('-' :: 'o' :: 't' :: 'h' :: 'e' :: 'r' :: '/' :: rest)) r
        = .ok (r ++ ('-' :: 'o' :: 't' :: 'h' :: 'e' :: 'r' :: '/' :: rest))
    ∧ ¬ WithinDir r (r ++ ('-' :: 'o' :: 't' :: 'h' :: 'e' :: 'r' :: '/' :: rest)) := by
  constructor
  · have hpre : r.isPrefixOf (r ++ ('-' :: 'o' :: 't' :: 'h' :: 'e' :: 'r' :: '/' :: rest)) = true := by
      rw [ List.isPrefixOf_iff_prefix]
      exact List.prefix_append r _
    simp [validate_safe_path, hpre]
  · rintro (h | h)
    · have := congrArg List.length h
      simp at this
    · rcases h with ⟨t, ht⟩
      rw [List.append_assoc] at ht
      have := List.append_cancel_left ht
      exact absurd (List.cons.inj this).1 (by decide)

/-- C1: the engine does invoke the lookup with both date bounds
(batch_exporter.py:252 passes `start_date, end_date`), but the lookup's
signature takes a single `from_date`, so every such call raises
`TypeError`; moreover the query itself never filters on an upper bound:
a record whose only attachment was added `9999-01-01` is returned for
`from_date = 2020-01-01`, while the spec-modelled lookup with
`end_date = 2020-12-31` excludes it. -/
theorem C1_lookup_arity_bug :
    (∀ (tbl : List MRow) (research etd : Str) (s e : Option Str),
        callGetHandlesForExport tbl research etd [s, e] = .typeError)
    ∧ get_handles_for_export (mkEligibleTbl ("9999-01-01".data))
        kaustResearch kaustEtd (some ("2020-01-01".data)) = ["10754/1".data]
    ∧ list_eligible_handles (mkEligibleTbl ("9999-01-01".data))
        kaustResearch kaustEtd (some ("2020-01-01".data))
        (some ("2020-12-31".data)) = [] := by
  refine ⟨fun _ _ _ _ _ => rfl, by decide, by decide⟩

/-- C2: the date filter is STRICTLY exclusive at the supplied bound — the
query requires `added > from_date` — so a record whose earliest (and only)
file attachment was added exactly on `from_date` is excluded, although the
record is otherwise eligible (returned with no date bound) and the
spec-modelled inclusive lookup returns it.  (No end-bound filter exists at
all; see C1.) -/
theorem C2_date_bound_exclusive :
    get_handles_for_export (mkEligibleTbl ("2024-06-15".data))
        kaustResearch kaustEtd (some ("2024-06-15".data)) = []
    ∧ get_handles_for_export (mkEligibleTbl ("2024-06-15".data))
        kaustResearch kaustEtd none = ["10754/1".data]
    ∧ list_eligible_handles (mkEligibleTbl ("2024-06-15".data))
        kaustResearch kaustEtd (some ("2024-06-15".data)) none
        = ["10754/1".data] := by
  refine ⟨by decide, by decide, by decide⟩

/-- The target path built by the engine is always below the export
directory, so the prefix-based `validate_safe_path` accepts it. -/
theorem validate_safe_path_sub (dir f : Str) :
    validate_safe_path id (dir ++ '/' :: f) dir = .ok (dir ++ '/' :: f) := by
  have hpre : dir.isPrefixOf (dir ++ '/' :: f) = true := by
    rw [ List.isPrefixOf_iff_prefix]
    exact List.prefix_append dir _
  simp [validate_safe_path, hpre]

/-- C5: a candidate whose suffix is already in `csv_done` is counted as
skipped and nothing else happens: the resulting state differs from the
input state only in `total` and `skipped` — in particular no metadata
lookup, no bitstream fetch, no filesystem write, no trace event and no new
CSV row. -/
theorem C5_csv_done_skips_entirely (db : Db) (ds : Dspace) (env : Env)
    (st : EngineSt) (h : Str)
    (hv : pyFullMatch h = true)
    (hin : env.csvDone.contains (handleSuffix h) = true) :
    processHandle db ds env st h
      = { st with total := st.total + 1, skipped := st.skipped + 1 } := by
  unfold processHandle
  rw [if_pos hv, if_pos hin]

/-- Witness for C5: handle `10754/124545` against a CSV already containing
suffix `124545`. -/
theorem C5_csv_done_skips_entirely_witness :
    processHandle db0 ds0 env0 (initSt fsEmpty) ("10754/124545".data)
      = { initSt fsEmpty with total := 1, skipped := 1 } :=
  C5_csv_done_skips_entirely db0 ds0 env0 (initSt fsEmpty)
    ("10754/124545".data) (by decide) (by decide)

/-- C3: for a candidate whose bitstream identifiers are `[u1, u2]` with
`u1` failing permanently: if `u2` succeeds within the size ceiling,
exactly one CSV row is appended, the final path holds exactly `u2`'s
bytes, and the trace shows the write went to the temporary path and was
renamed into place; if `u2` also fails, no row is appended, the record is
counted as an error, and the filesystem — in particular the final path —
is completely untouched. -/
theorem C3_first_fails_second_succeeds (db : Db) (ds : Dspace) (env : Env)
    (st : EngineSt) (h u1 u2 : Str) (content : Content)
    (hv : pyFullMatch h = true)
    (hcsv : env.csvDone.contains (handleSuffix h) = false)
    (hfile : env.filesPresent.contains (handleSuffix h) = false)
    (huuids : db.bitstreamUuids h = [u1, u2])
    (h1 : ds.fetchResult u1 = .failure) :
    (ds.fetchResult u2 = .success content → content.length ≤ MAX_FILE_SIZE →
      (processHandle db ds env st h).rows
          = st.rows ++ [{ (get_metadata_for_handle db h).1 with
              fileName := sanitize_filename (handleSuffix h ++ ".pdf".data) }]
        ∧ (processHandle db ds env st h).fs
            (env.exportDir ++ '/' :: sanitize_filename (handleSuffix h ++ ".pdf".data))
            = some content
        ∧ (processHandle db ds env st h).success = st.success + 1
        ∧ (processHandle db ds env st h).errors = st.errors
        ∧ (processHandle db ds env st h).trace
            = st.trace ++ (get_metadata_for_handle db h).2
              ++ [Effect.dbUuids h, Effect.apiFetch u1, Effect.apiFetch u2,
                  Effect.fsWriteTmp (tmpPath (env.exportDir ++ '/' ::
                    sanitize_filename (handleSuffix h ++ ".pdf".data))),
                  Effect.fsRename (tmpPath (env.exportDir ++ '/' ::
                    sanitize_filename (handleSuffix h ++ ".pdf".data)))
                    (env.exportDir ++ '/' ::
                      sanitize_filename (handleSuffix h ++ ".pdf".data)),
                  Effect.csvWrite])
    ∧ (ds.fetchResult u2 = .failure →
      (processHandle db ds env st h).rows = st.rows
        ∧ (processHandle db ds env st h).errors = st.errors + 1
        ∧ (processHandle db ds env st h).success = st.success
        ∧ ∀ p, (processHandle db ds env st h).fs p = st.fs p) := by
  have hcsv' : ¬ (env.csvDone.contains (handleSuffix h) = true) := by
    rw [hcsv]; simp
  have hfile' : ¬ (handleSuffix h ∈ env.filesPresent) := by simpa using hfile
  constructor
  · intro h2 hsize
    have hnotgt : ¬ (content.length > MAX_FILE_SIZE) := Nat.not_lt.2 hsize
    unfold processHandle
    rw [if_pos hv, if_neg hcsv']
    simp [validate_safe_path_sub, huuids, hfile', tryUuids, download_file,
      h1, h2, hnotgt, List.append_assoc]
  · intro h2
    unfold processHandle
    rw [if_pos hv, if_neg hcsv']
    simp [validate_safe_path_sub, huuids, hfile', tryUuids, download_file,
      h1, h2, List.append_assoc]

/-- Witness for C3: two identifiers, first fails, second returns bytes
`[7, 8]` — the final path holds `[7, 8]` and the run counts one success. -/
theorem C3_first_fails_second_succeeds_witness :
    (processHandle dbC3 dsC3 envC3 (initSt fsEmpty) ("10754/9".data)).fs
        (envC3.exportDir ++ '/' ::
          sanitize_filename (handleSuffix ("10754/9".data) ++ ".pdf".data))
      = some [7, 8]
    ∧ (processHandle dbC3 dsC3 envC3 (initSt fsEmpty) ("10754/9".data)).success = 1 :=
  ⟨((C3_first_fails_second_succeeds dbC3 dsC3 envC3 (initSt fsEmpty)
      ("10754/9".data) ("u1".data) ("u2".data) [7, 8]
      (by decide) (by decide) (by decide) rfl rfl).1 rfl (by decide)).2.1,
   ((C3_first_fails_second_succeeds dbC3 dsC3 envC3 (initSt fsEmpty)
      ("10754/9".data) ("u1".data) ("u2".data) [7, 8]
      (by decide) (by decide) (by decide) rfl rfl).1 rfl (by decide)).2.2.1⟩

/-- C4: with `limit > 0`, the candidate loop stops entirely — not merely
skips — as soon as the run's own download count has reached the limit
(and per-candidate processing raises the download count exactly when it
raises the success count, so this is the success count); in the concrete
run with `limit = 2` and five downloadable candidates, exactly 2 rows
succeed, `limit_reached` is true, and `total_handles` is still 5. -/
theorem C4_limit_stops_loop :
    (∀ (db : Db) (ds : Dspace) (env : Env) (limit : Nat) (st : EngineSt)
        (h : Str) (rest : List Str),
        0 < limit → limit ≤ st.downloaded →
        exportLoop db ds env limit st (h :: rest) = st)
    ∧ (∀ (db : Db) (ds : Dspace) (env : Env) (st : EngineSt) (h : Str),
        (processHandle db ds env st h).downloaded + st.success
          = (processHandle db ds env st h).success + st.downloaded)
    ∧ (export_batch db4 ds4 fiveHandles [] [] [] ("/export".data) fsEmpty 2).1.successful = 2
    ∧ (export_batch db4 ds4 fiveHandles [] [] [] ("/export".data) fsEmpty 2).1.limit_reached = true
    ∧ (export_batch db4 ds4 fiveHandles [] [] [] ("/export".data) fsEmpty 2).1.total_handles = 5 := by
  refine ⟨?_, ?_, by decide, by decide, by decide⟩
  · intro db ds env limit st h rest hpos hge
    unfold exportLoop
    rw [if_pos ⟨hpos, hge⟩]
  · intro db ds env st h
    unfold processHandle
    dsimp only
    repeat' split
    all_goals dsimp only
    all_goals omega

/-- Witness for C4: a loop whose state has already downloaded 2 files with
`limit = 2` returns unchanged on any further candidate. -/
theorem C4_limit_stops_loop_witness :
    exportLoop db0 ds0 env0 2 { initSt fsEmpty with downloaded := 2 }
        ["10754/1".data]
      = { initSt fsEmpty with downloaded := 2 } :=
  C4_limit_stops_loop.1 db0 ds0 env0 2 { initSt fsEmpty with downloaded := 2 }
    ("10754/1".data) [] (by decide) (by decide)

theorem lexLt_nil_false (e : Str) : lexLt e [] = false := by
  cases e <;> rfl

/-- C8: when both `--start` and `--end` are supplied (non-empty) and
`start > end` (string comparison, as the source compares them), `main`
rejects the run via `parser.error` before the database connection is
opened: the result is a parser error with an empty effect trace — no
lookup and no fetch happened. -/
theorem C8_inverted_range_rejected (db : Db) (ds : Dspace)
    (fetched embargoed : List Str) (csvEvents : List CsvEvent)
    (filesPresent : List Str) (exportDir : Str) (fs0 : FS)
    (s e : Str) (n : Int)
    (he : e ≠ []) (hlt : lexLt e s = true) :
    main_model db ds fetched embargoed csvEvents filesPresent exportDir fs0
        ⟨some s, some e, n⟩
      = (.parserError, []) := by
  have hs : s ≠ [] := by
    intro hnil
    subst hnil
    rw [lexLt_nil_false] at hlt
    exact Bool.false_ne_true hlt
  unfold main_model
  dsimp only
  have hcond : (truthy (some s) && truthy (some e)
      && lexLt ((some e).getD []) ((some s).getD [])) = true := by
    simp [truthy, List.isEmpty_iff, hs, he, hlt]
  by_cases hneg : n < 0
  · rw [if_pos hneg]
  · rw [if_neg hneg, if_pos hcond]

/-- Witness for C8 at `--start 2024-02-01 --end 2024-01-01`. -/
theorem C8_inverted_range_rejected_witness :
    main_model db0 ds0 [] [] [] [] ("/export".data) fsEmpty
        ⟨some ("2024-02-01".data), some ("2024-01-01".data), 0⟩
      = (.parserError, []) :=
  C8_inverted_range_rejected db0 ds0 [] [] [] [] ("/export".data) fsEmpty
    ("2024-02-01".data) ("2024-01-01".data) 0 (by decide) (by decide)

/-- C10: any exception while reading the existing CSV is swallowed —
everything after the failure point is ignored and the suffixes collected
so far are returned (empty set when the failure is immediate) instead of
the run aborting; consequently a run whose (unreadable) CSV already
contains handle `10754/124545` proceeds and appends a duplicate row for
that very handle. -/
theorem C10_csv_read_error_swallowed :
    (∀ (pre rest : List CsvEvent), (∀ ev ∈ pre, ev ≠ CsvEvent.readError) →
        get_existing_handles_from_csv (pre ++ CsvEvent.readError :: rest)
          = get_existing_handles_from_csv pre)
    ∧ get_existing_handles_from_csv [CsvEvent.row url124545] = ["124545".data]
    ∧ get_existing_handles_from_csv [CsvEvent.readError] = []
    ∧ (export_batch dbC10 dsC10 ["10754/124545".data] [] [CsvEvent.readError]
        [] ("/export".data) fsEmpty 0).1.successful = 1
    ∧ (export_batch dbC10 dsC10 ["10754/124545".data] [] [CsvEvent.readError]
        [] ("/export".data) fsEmpty 0).2.rows.map (fun r => r.handleUrl)
        = [url124545] := by
  refine ⟨?_, by decide, by decide, by decide, by decide⟩
  · intro pre rest hpre
    induction pre with
    | nil => rfl
    | cons ev pre ih =>
      cases ev with
      | readError => exact absurd rfl (hpre _ (List.mem_cons_self _ _))
      | row url =>
        simp only [List.cons_append, get_existing_handles_from_csv]
        congr 1
        exact ih (fun x hx => hpre x (List.mem_cons_of_mem _ hx))

/-- Witness for C10: a row event followed by a read error yields the same
set as the row alone. -/
theorem C10_csv_read_error_swallowed_witness :
    get_existing_handles_from_csv
        ([CsvEvent.row url124545] ++ CsvEvent.readError :: [])
      = get_existing_handles_from_csv [CsvEvent.row url124545] :=
  C10_csv_read_error_swallowed.1 [CsvEvent.row url124545] [] (by decide)

/-- Witness for C9 at allowed directory `/export` and escaping sibling
path `/export-other/secret.txt`. -/
theorem C9_validate_safe_path_prefix_escape_witness :
    validate_safe_path id
        ("/export".data ++ ('-' :: 'o' :: 't' :: 'h' :: 'e' :: 'r' :: '/' :: "secret.txt".data))
        ("/export".data)
      = .ok ("/export".data ++ ('-' :: 'o' :: 't' :: 'h' :: 'e' :: 'r' :: '/' :: "secret.txt".data))
    ∧ ¬ WithinDir ("/export".data)
        ("/export".data ++ ('-' :: 'o' :: 't' :: 'h' :: 'e' :: 'r' :: '/' :: "secret.txt".data)) :=
  C9_validate_safe_path_prefix_escape ("/export".data) ("secret.txt".data)
